import Mathlib

/-!
# EviForGe job dispatch and lifecycle engine — verification development

Shallow embedding of the job-dispatch subsystem of the EviForGe repository:

* `src/eviforge/core/jobs.py` — `_execution_mode`, `enqueue_job`, `update_job_status`
* `src/eviforge/desktop_backend.py` — `submit_module`, `_execute_job`,
  `_extract_output_files`, `_result_preview`
* `src/eviforge/api/routes/cases.py` — `create_case_job`, `_module_requirements`

Python dictionaries are embedded as association lists with unique keys in
insertion order (lookup is first-match), filesystem paths as lists of POSIX
components, the SQLAlchemy store as an explicit list of `Job` records, and
wall-clock/uuid effects as explicit parameters.  A few collaborators of the
core live outside the sources we verify (the worker module, `core/sanitize.py`,
`core/custody.py`); where a claim depends on them they are modelled from the
spec and documented as such.
-/

namespace EviForGe

/-- JSON-like values: the payloads carried in module params and results
(Python `dict`s become association lists in insertion order). -/
inductive JVal where
  | s (v : String)
  | n (v : Int)
  | b (v : Bool)
  | null
  | list (vs : List JVal)
  | obj (fields : List (String × JVal))

/-- First-match association-list lookup: the embedding of Python `d.get(k)` /
`d[k]` on a dict (keys are unique in a Python dict, so first-match is exact). -/
def lookup {α : Type} (l : List (String × α)) (k : String) : Option α :=
  (l.find? (fun kv => kv.1 = k)).map (fun kv => kv.2)

/-- The embedding of Python `d[k] = v` on a dict: overwrite in place if the key
exists, otherwise append (dicts preserve insertion order). -/
def dictSet {α : Type} (l : List (String × α)) (k : String) (v : α) :
    List (String × α) :=
  if (lookup l k).isSome then
    l.map (fun kv => if kv.1 = k then (k, v) else kv)
  else
    l ++ [(k, v)]

/-- Job states, from `eviforge.core.models.JobStatus` (the model module is not
under the verified sources; the four states are fixed by spec §3/§4.2 and by
every use site in `jobs.py`, `cases.py` and `desktop_backend.py`). -/
inductive JobStatus where
  | PENDING
  | RUNNING
  | COMPLETED
  | FAILED
  deriving Repr, BEq, DecidableEq

/-- The persisted Job record, from `eviforge.core.models.Job` as used by
`jobs.py` / `desktop_backend.py` / `cases.py` (spec §3).  JSON-serialized
columns (`result_json`, `result_preview_json`, `output_files_json`,
`params_json`) are embedded as the serialized values themselves;
`output_files = []` embeds an absent `output_files_json`. -/
structure Job where
  id : String
  case_id : String
  evidence_id : Option String := none
  tool_name : String
  status : JobStatus
  queued_at : Option Nat := none
  started_at : Option Nat := none
  completed_at : Option Nat := none
  created_at : Option Nat := none
  params : List (String × JVal) := []
  rq_job_id : Option String := none
  result_json : Option JVal := none
  result_preview : Option (List (String × JVal)) := none
  output_files : List String := []
  error_message : Option String := none

/-- A registered analysis module as the dispatch code sees it: only the
`requires_evidence` capability flag matters to submission validation
(`MODULE_REGISTRY` itself lives in the worker module, outside the verified
sources; the registry is an explicit parameter throughout). -/
structure Module where
  requires_evidence : Bool
  description : String := ""
  deriving Repr, DecidableEq

/-- The durably committed database state visible to the dispatch code:
cases by id, evidence as (evidence id, owning case id) pairs, and the job
table in insertion order. -/
structure Store where
  cases : List String := []
  evidence : List (String × String) := []
  jobs : List Job := []

/-- Embedding of `session.get(Job, job_id)`: first job with the given primary key. -/
def findJob (jobs : List Job) (id : String) : Option Job :=
  jobs.find? (fun j => j.id = id)

/-- Mutating the row with primary key `id` (SQLAlchemy attribute assignment
followed by commit). -/
def updateJob (jobs : List Job) (id : String) (f : Job → Job) : List Job :=
  jobs.map (fun j => if j.id = id then f j else j)

/-- Python truthiness of an optional string (`if evidence_id:` /
`not evidence_id`): `None` and the empty string are falsey. -/
def truthy : Option String → Bool
  | none => false
  | some s => !s.isEmpty

/-- Python's `s.startswith(pre)`: `pre`'s characters are a prefix of `s`'s. -/
def pyStartsWith (s pre : String) : Bool :=
  pre.data.isPrefixOf s.data

/-- Python's default `str.strip` whitespace set (ASCII fragment). -/
def isPySpace (c : Char) : Bool :=
  c == ' ' || c == '\t' || c == '\n' || c == '\r' || c == '\x0b' || c == '\x0c'

/-- Python's `s.strip()`: drop leading and trailing whitespace. -/
def pyStrip (s : String) : String :=
  String.mk (((s.data.dropWhile isPySpace).reverse.dropWhile isPySpace).reverse)

/-- ASCII lowercasing of one character (`str.lower` on the inputs relevant
here). -/
def pyLowerChar (c : Char) : Char :=
  if 'A' ≤ c ∧ c ≤ 'Z' then Char.ofNat (c.toNat + 32) else c

/-- Python's `s.lower()`. -/
def pyLower (s : String) : String :=
  String.mk (s.data.map pyLowerChar)

/-! ## Filesystem paths

`_extract_output_files` calls `Path(...).resolve()` and
`Path.relative_to`.  Paths are embedded as lists of POSIX components; `resolve`
is the lexical normalization of an absolute path (no symlinks in the model),
with relative paths resolved against an explicit current working directory. -/

/-- Split a POSIX path string into components, dropping empty components
(`"/a//b/".split("/")` keeps only `a` and `b`). -/
def splitPath (s : String) : List String :=
  ((s.data.splitOn '/').map String.mk).filter (fun c => c ≠ "")

/-- One step of lexical normalization: `.` is dropped, `..` pops the last
component, anything else is pushed. -/
def normStep (acc : List String) (c : String) : List String :=
  if c = "." then acc
  else if c = ".." then acc.dropLast
  else acc ++ [c]

/-- Lexical normalization of a component list (the effect of `Path.resolve()`
on an absolute path when no symlinks are involved). -/
def normalize (cs : List String) : List String :=
  cs.foldl normStep []

/-- Embedding of `Path(s).resolve()`: absolute paths normalize from the root, relative
paths are first anchored at the current working directory `cwd` (itself a
resolved component list). -/
def resolvePath (cwd : List String) (s : String) : List String :=
  if pyStartsWith s "/" then normalize (splitPath s)
  else normalize (cwd ++ splitPath s)

/-- Embedding of `p.relative_to(root)` on resolved paths: succeeds exactly when `root` is a
componentwise prefix of `p`, returning the remaining components; otherwise
raises `ValueError` (embedded as `none`). -/
def relativeTo (p root : List String) : Option (List String) :=
  if root.isPrefixOf p then some (p.drop root.length) else none

/-- Rendering via `Path.as_posix()` of a relative component list (`Path('.')` for the empty
relative path, as Python's `relative_to` yields for `p = root`). -/
def renderRel (cs : List String) : String :=
  match cs with
  | [] => "."
  | c :: rest => rest.foldl (fun acc d => acc ++ "/" ++ d) c

/-- The seen-set/unique-list deduplication loop that ends
`DesktopBackend._extract_output_files`: first occurrence wins, order is
preserved (the source's `seen` set always holds exactly the elements of
`uniq`, so `uniq` itself serves as the seen set here). -/
def dedupFirst (l : List String) : List String :=
  l.foldl (fun uniq p => if p ∈ uniq then uniq else uniq ++ [p]) []

/-- Embedding of `DesktopBackend._extract_output_files(result, artifacts_root)`
(`desktop_backend.py:468-493`): the single `output_file` string (if any), then
each string entry of the `output_files` list (if any); each path is resolved
and converted relative to the resolved artifact root, with failures of
`relative_to` silently skipped; the collected list is deduplicated
first-occurrence-wins. -/
def extractOutputFiles (result : List (String × JVal)) (cwd root : List String) :
    List String :=
  let fromSingle :=
    match lookup result "output_file" with
    | some (JVal.s f) =>
      match relativeTo (resolvePath cwd f) root with
      | some rel => [renderRel rel]
      | none => []
    | _ => []
  let fromList :=
    match lookup result "output_files" with
    | some (JVal.list items) =>
      items.filterMap (fun item =>
        match item with
        | JVal.s f => (relativeTo (resolvePath cwd f) root).map renderRel
        | _ => none)
    | _ => []
  dedupFirst (fromSingle ++ fromList)

/-- The fixed allow-list tuple `keys` inside `DesktopBackend._result_preview`
(`desktop_backend.py:497-510`). -/
def previewKeys : List String :=
  ["status", "error", "file_count", "count", "event_count", "events_count",
   "messages_count", "parsed_objects", "tags_found", "entropy",
   "is_suspicious", "integrity_ok"]

/-- Embedding of `DesktopBackend._result_preview(result)` (`desktop_backend.py:495-516`):
copy each allow-listed key present in `result` verbatim, then the
`output_file` key if present. -/
def resultPreview (result : List (String × JVal)) : List (String × JVal) :=
  (previewKeys.filterMap (fun k => (lookup result k).map (fun v => (k, v))))
    ++ (match lookup result "output_file" with
        | some v => [("output_file", v)]
        | none => [])

/-- ASCII control characters (C0 plus DEL). -/
def isCtrl (c : Char) : Bool :=
  c.toNat < 32 || c.toNat = 127

/-- Modelled from the spec: `sanitize_text` from `eviforge.core.sanitize` is
not under the verified sources.  Spec §7: the raw exception text is sanitized,
"control characters stripped, any recognizable secret-shaped substrings
redacted", before being stored as `error_message`.  We model the
control-character stripping; redaction replaces recognized substrings with a
placeholder and so never empties a text that carries no secret, which is the
only aspect the claims depend on. -/
def sanitizeText (s : String) : String :=
  String.mk (s.data.filter (fun c => !isCtrl c))

/-- The fixed leading line of Python's `traceback.format_exc()`; the formatted
frames vary per call site and are carried as an explicit `detail` parameter. -/
def tracebackText (detail : String) : String :=
  "Traceback (most recent call last):\n" ++ detail

/-- Embedding of `_execution_mode()` (`core/jobs.py:21-25`): read
`EVIFORGE_JOB_EXECUTION` (default `"auto"`), strip surrounding whitespace,
lowercase, and keep the value only if it is one of the three known modes. -/
def executionMode (env : Option String) : String :=
  let mode := pyLower (pyStrip (env.getD "auto"))
  if mode = "queue" ∨ mode = "inline" ∨ mode = "auto" then mode else "auto"

/-! ## Dispatch: `enqueue_job` and `update_job_status` (`core/jobs.py`) -/

/-- The string value at a key, if the key holds a string
(`params.get("evidence_id")` — the callers in this repository only ever store a
string there). -/
def getStrOpt : Option JVal → Option String
  | some (JVal.s v) => some v
  | _ => none

/-- Embedding of `enqueue_job(session, settings, case_id, tool_name, params)`
(`core/jobs.py:54-110`).  The SQLAlchemy session is embedded as the pending
(flushed but uncommitted) job list; the `q.enqueue` call — including the Redis
connection setup inside the same `try` — is embedded as its outcome `publish`
(`Except.ok` with the RQ job id, `Except.error` with the exception text).
On `.error` the flushed insert is still uncommitted and is discarded by the
caller's session rollback. -/
def enqueueJob (pending : List Job) (case_id tool_name : String)
    (params : List (String × JVal)) (mode : String)
    (publish : Except String String) (job_id : String) (now : Nat) :
    Except String (List Job × Job) :=
  let evidence_id := getStrOpt (lookup params "evidence_id")
  let job : Job :=
    { id := job_id, case_id := case_id, evidence_id := evidence_id,
      tool_name := tool_name, status := JobStatus.PENDING,
      queued_at := some now, created_at := some now, params := params }
  let pending1 := pending ++ [job]
  if mode = "inline" then
    let job1 := { job with rq_job_id := some ("inline:" ++ job_id) }
    Except.ok (updateJob pending1 job_id (fun _ => job1), job1)
  else
    match publish with
    | Except.ok rqid =>
      let job1 := { job with rq_job_id := some rqid }
      Except.ok (updateJob pending1 job_id (fun _ => job1), job1)
    | Except.error exc =>
      if mode = "queue" then Except.error exc
      else
        let job1 := { job with rq_job_id := some ("inline:" ++ job_id) }
        Except.ok (updateJob pending1 job_id (fun _ => job1), job1)

/-- The per-row field assignments of `update_job_status`
(`core/jobs.py:127-134`): set the status, overwrite `result_json` /
`error_message` only for non-`None` arguments, stamp `completed_at` for the
two terminal statuses. -/
def statusFields (status : JobStatus) (result : Option JVal)
    (error : Option String) (t : Nat) (j : Job) : Job :=
  let j1 := { j with status := status }
  let j2 := match result with
    | some r => { j1 with result_json := some r }
    | none => j1
  let j3 := match error with
    | some e => { j2 with error_message := some e }
    | none => j2
  if status = JobStatus.COMPLETED ∨ status = JobStatus.FAILED then
    { j3 with completed_at := some t }
  else j3

/-- Embedding of `update_job_status(session, job_id, status, result, error)`
(`core/jobs.py:113-137`): no-op when the job is absent; otherwise apply the
field assignments to the row and commit. -/
def updateJobStatus (jobs : List Job) (job_id : String) (status : JobStatus)
    (result : Option JVal) (error : Option String) (t : Nat) : List Job :=
  match findJob jobs job_id with
  | none => jobs
  | some _ => updateJob jobs job_id (statusFields status result error t)

/-! ## Desktop submission and execution (`desktop_backend.py`) -/

/-- Whether the evidence row exists and belongs to the case
(`ev = session.get(Evidence, evidence_id); not ev or ev.case_id != case_id`).
Only consulted when `evidence_id` is truthy. -/
def evidenceInCase (st : Store) (eid : String) (cid : String) : Bool :=
  match lookup st.evidence eid with
  | none => false
  | some c => c = cid

/-- Embedding of `DesktopBackend.submit_module(case_id, module_name, evidence_id, params,
actor)` (`desktop_backend.py:141-202`) up to and including the commit of the
new `PENDING` job.  Registry membership and the `requires_evidence` check come
before any database work; an exception leaves the committed store untouched.
The scheduled background `_execute_job` thread is a separate trace step
(`executeJob` below).  `now` stands for `utcnow()`, `newId` for the
database-assigned job id. -/
def submitModule (registry : List (String × Module)) (st : Store)
    (case_id module_name : String) (evidence_id : Option String)
    (params : Option (List (String × JVal))) (actor : String)
    (now : Nat) (newId : String) : Store × Except String String :=
  match lookup registry module_name with
  | none => (st, Except.error ("Unknown module: " ++ module_name))
  | some m =>
    if m.requires_evidence && !(truthy evidence_id) then
      (st, Except.error "This module requires evidence")
    else
      let base := params.getD []
      let rp1 :=
        if truthy evidence_id then
          dictSet base "evidence_id" (JVal.s (evidence_id.getD ""))
        else base
      let run_params := dictSet rp1 "actor" (JVal.s actor)
      if !(st.cases.contains case_id) then
        (st, Except.error "Case not found")
      else if truthy evidence_id &&
          !(evidenceInCase st (evidence_id.getD "") case_id) then
        (st, Except.error "Evidence not found in selected case")
      else
        let job : Job :=
          { id := newId, case_id := case_id, evidence_id := evidence_id,
            tool_name := module_name, status := JobStatus.PENDING,
            queued_at := some now, created_at := some now,
            params := run_params,
            rq_job_id := some ("desktop-inline:" ++ toString now) }
        ({ st with jobs := st.jobs ++ [job] }, Except.ok newId)

/-- The outcome of invoking `module.run(case_id, evidence_id, **kwargs)`:
either a returned value or a raised exception (with its `str(exc)` text). -/
inductive RunOutcome where
  | ok (r : JVal)
  | exn (msg : String)

/-- The `RUNNING` field assignments of `DesktopBackend._execute_job`
(`desktop_backend.py:222-223`). -/
def markFields (t : Nat) (j : Job) : Job :=
  { j with status := JobStatus.RUNNING, started_at := some t }

/-- The `FAILED` field assignments of `DesktopBackend._execute_job`
(`desktop_backend.py:266-268`). -/
def failFields (err : String) (t : Nat) (j : Job) : Job :=
  { j with status := JobStatus.FAILED, completed_at := some t,
           error_message := some err }

/-- The `COMPLETED` field assignments of `DesktopBackend._execute_job`
(`desktop_backend.py:241-245`). -/
def completeFields (fields : List (String × JVal))
    (output_files : List String) (preview : List (String × JVal)) (t : Nat)
    (j : Job) : Job :=
  { j with status := JobStatus.COMPLETED, completed_at := some t,
           result_json := some (JVal.obj fields),
           result_preview := some preview, output_files := output_files }

/-- The first session block of `DesktopBackend._execute_job`
(`desktop_backend.py:218-226`): load the job (no-op when absent), mark it
`RUNNING` and stamp `started_at`, commit. -/
def markRunningOp (jobs : List Job) (id : String) (t : Nat) : List Job :=
  match findJob jobs id with
  | none => jobs
  | some _ => updateJob jobs id (markFields t)

/-- The `FAILED` update inside the `except` clause of
`DesktopBackend._execute_job` (`desktop_backend.py:263-270`): load the job
again (guarded no-op when absent), mark it `FAILED`, stamp `completed_at`,
store the sanitized error text, commit. -/
def failUpdate (jobs : List Job) (id : String) (err : String) (t : Nat) :
    List Job :=
  match findJob jobs id with
  | none => jobs
  | some _ => updateJob jobs id (failFields err t)

/-- The `try`/`except` body of `DesktopBackend._execute_job`
(`desktop_backend.py:228-281`), applied to a job already marked `RUNNING`.
A dict result is projected (`_extract_output_files`, `_result_preview`) and
committed as `COMPLETED`; a non-dict result raises
`ValueError("Module returned non-dict result")`, which the `except` clause
turns — like any raised exception — into a `FAILED` job whose `error_message`
is `sanitize_text(f"{exc}\n{traceback.format_exc()}")`.  `cwd` anchors
relative paths for `Path.resolve()`, `root` is the resolved
`vault_dir / case_id / "artifacts"`, and `tbdetail` carries the formatted
traceback frames.  The chain-of-custody `append_entry` calls write a log file
outside the job store and, per spec §6, never raise into this function. -/
def finishJob (jobs : List Job) (id : String) (outcome : RunOutcome)
    (cwd root : List String) (t : Nat) (tbdetail : String) : List Job :=
  match outcome with
  | RunOutcome.ok (JVal.obj fields) =>
    match findJob jobs id with
    | none => jobs
    | some _ =>
      updateJob jobs id
        (completeFields fields (extractOutputFiles fields cwd root)
          (resultPreview fields) t)
  | RunOutcome.ok _ =>
    failUpdate jobs id
      (sanitizeText ("Module returned non-dict result" ++ "\n"
        ++ tracebackText tbdetail)) t
  | RunOutcome.exn msg =>
    failUpdate jobs id (sanitizeText (msg ++ "\n" ++ tracebackText tbdetail)) t

/-- Embedding of `DesktopBackend._execute_job` end to end (`desktop_backend.py:204-281`):
load the job (return silently when absent), commit the `RUNNING` transition,
then run the module and commit the terminal transition.  A total function:
no exception escapes the worker boundary. -/
def executeJob (jobs : List Job) (id : String) (outcome : RunOutcome)
    (cwd root : List String) (t1 t2 : Nat) (tbdetail : String) : List Job :=
  match findJob jobs id with
  | none => jobs
  | some _ => finishJob (markRunningOp jobs id t1) id outcome cwd root t2 tbdetail

/-! ## API submission (`api/routes/cases.py`) -/

/-- Embedding of `_module_requirements()` (`cases.py:118-133`), non-exceptional path: the
name → `requires_evidence` map built from the worker registry. -/
def moduleRequirements (registry : List (String × Module)) :
    List (String × Bool) :=
  registry.map (fun nm => (nm.1, nm.2.requires_evidence))

/-- The response body of a successful `create_case_job`. -/
structure JobSummary where
  id : String
  status : JobStatus
  module : String

/-- Embedding of `create_case_job(request, case_id, req, _user)` (`cases.py:183-249`).
Returns the committed store after the request, the HTTP outcome
(`Except.error (code, detail)` embeds `HTTPException`), and whether
`execute_job_inline` was scheduled (the `rq_job_id.startswith("inline:")`
check at `cases.py:238-239`).  When `enqueue_job` raises, the surrounding
session closes without a commit, rolling back the flushed insert, and the
handler re-raises as a 500.  The custody and audit writes are best-effort
(`try`/`except pass`) and do not touch the job table. -/
def createCaseJob (registry : List (String × Module)) (st : Store)
    (case_id module_name : String) (evidence_id : Option String)
    (params0 : List (String × JVal)) (actor : String) (mode : String)
    (publish : Except String String) (newId : String) (now : Nat) :
    Store × Except (Nat × String) JobSummary × Bool :=
  if !(st.cases.contains case_id) then
    (st, Except.error (404, "Case not found"), false)
  else
    match lookup (moduleRequirements registry) module_name with
    | none => (st, Except.error (400, "Unsupported module"), false)
    | some req =>
      if req && !(truthy evidence_id) then
        (st, Except.error (400, "evidence_id is required for this module"),
          false)
      else
        let params1 :=
          if truthy evidence_id then
            dictSet params0 "evidence_id" (JVal.s (evidence_id.getD ""))
          else params0
        let params := dictSet params1 "actor" (JVal.s actor)
        match enqueueJob st.jobs case_id module_name params mode publish
            newId now with
        | Except.error e => (st, Except.error (500, e), false)
        | Except.ok (jobs1, job) =>
          let st1 := { st with jobs := jobs1 }
          let inline := pyStartsWith (job.rq_job_id.getD "") "inline:"
          (st1,
            Except.ok
              { id := job.id, status := job.status, module := job.tool_name },
            inline)

/-- Embedding of `list_case_jobs` / `DesktopBackend.list_jobs`: the case's jobs ordered by
`created_at` descending (`cases.py:156-161`, `desktop_backend.py:124-132`). -/
def listCaseJobs (st : Store) (case_id : String) : List Job :=
  ((st.jobs.filter (fun j => j.case_id = case_id)).mergeSort
    (fun a b => b.created_at.getD 0 ≤ a.created_at.getD 0))

/-! ## Spec-side restatement of output-file extraction (for the refinement
claim about `_extract_output_files`) -/

/-- Following the spec's words: the raw result "may carry a single
`output_file` path and/or an `output_files` list of paths", considered in
encounter order. -/
def encounterOrderPaths (result : List (String × JVal)) : List String :=
  (match lookup result "output_file" with
   | some (JVal.s f) => [f]
   | _ => []) ++
  (match lookup result "output_files" with
   | some (JVal.list items) =>
     items.filterMap (fun item =>
       match item with
       | JVal.s f => some f
       | _ => none)
   | _ => [])

/-- Following the spec's words: a path that resolves under the artifact root
is converted to a path relative to that root; one that does not is dropped. -/
def relUnderRoot (cwd root : List String) (f : String) : Option String :=
  (relativeTo (resolvePath cwd f) root).map renderRel

/-- Following the spec's words: each considered path, in encounter order, is
converted relative to the artifact root or silently dropped, and duplicates
are removed with the first occurrence winning. -/
def specExtractOutputFiles (result : List (String × JVal))
    (cwd root : List String) : List String :=
  dedupFirst ((encounterOrderPaths result).filterMap (relUnderRoot cwd root))

/-! ## The system trace

The observable (committed) states of the job store, under the operations the
repository actually performs: a desktop submission, an API submission, the
desktop executor's two commits, and the queue worker's transitions.

The worker module (`eviforge/worker.py`, `execute_module_task`) is not under
the verified sources; spec §4.5 fixes its behaviour — transition to `RUNNING`,
invoke the module, then commit exactly one of `COMPLETED` (with the result)
or `FAILED` (with the sanitized error) through `update_job_status`.  The
worker steps below are modelled from the spec accordingly, on top of the
in-source `updateJobStatus`.

Side conditions on the steps record how the repository drives the operations:
job ids are freshly generated (`uuid4` / database-assigned), and each
submission schedules exactly one executor for its own freshly created
(`PENDING`) job, so an executor only ever marks a `PENDING` job `RUNNING` and
only ever finishes a job it has itself marked `RUNNING` (spec §5: the inline
path never schedules the same job twice; the queue guarantees at most one
active consumer). -/
inductive Step : Store → Store → Prop where
  | submitDesktop (st : Store) (registry : List (String × Module))
      (case_id module_name : String) (evidence_id : Option String)
      (params : Option (List (String × JVal))) (actor : String)
      (now : Nat) (newId : String)
      (hfresh : ∀ j ∈ st.jobs, j.id ≠ newId) :
      Step st (submitModule registry st case_id module_name evidence_id
        params actor now newId).1
  | submitApi (st : Store) (registry : List (String × Module))
      (case_id module_name : String) (evidence_id : Option String)
      (params0 : List (String × JVal)) (actor : String) (mode : String)
      (publish : Except String String) (newId : String) (now : Nat)
      (hfresh : ∀ j ∈ st.jobs, j.id ≠ newId) :
      Step st (createCaseJob registry st case_id module_name evidence_id
        params0 actor mode publish newId now).1
  | markRunning (st : Store) (id : String) (t : Nat) (j : Job)
      (hpend : findJob st.jobs id = some j) (hst : j.status = JobStatus.PENDING) :
      Step st { st with jobs := markRunningOp st.jobs id t }
  | finish (st : Store) (id : String) (outcome : RunOutcome)
      (cwd root : List String) (t : Nat) (tbdetail : String) (j : Job)
      (hrun : findJob st.jobs id = some j) (hst : j.status = JobStatus.RUNNING) :
      Step st { st with jobs := finishJob st.jobs id outcome cwd root t tbdetail }
  | workerStart (st : Store) (id : String) (t : Nat) (j : Job)
      (hpend : findJob st.jobs id = some j) (hst : j.status = JobStatus.PENDING) :
      Step st { st with jobs := updateJobStatus st.jobs id JobStatus.RUNNING none none t }
  | workerComplete (st : Store) (id : String) (r : JVal) (t : Nat) (j : Job)
      (hrun : findJob st.jobs id = some j) (hst : j.status = JobStatus.RUNNING) :
      Step st { st with jobs := updateJobStatus st.jobs id JobStatus.COMPLETED (some r) none t }
  | workerFail (st : Store) (id : String) (e : String) (t : Nat) (j : Job)
      (hrun : findJob st.jobs id = some j) (hst : j.status = JobStatus.RUNNING) :
      Step st { st with jobs := updateJobStatus st.jobs id JobStatus.FAILED none (some e) t }

/-- Stores reachable from a store with an empty job table through the
system's operations. -/
inductive Reachable : Store → Prop where
  | init (st : Store) (h : st.jobs = []) : Reachable st
  | step (st st' : Store) (h : Reachable st) (hs : Step st st') : Reachable st'

/-- The per-job shape invariant maintained by the system: pre-terminal jobs
carry no payload, and each terminal job carries `completed_at` together with
exactly the payload field of its own terminal state. -/
def JobWF (j : Job) : Prop :=
  match j.status with
  | JobStatus.PENDING =>
    j.result_json = none ∧ j.error_message = none ∧ j.completed_at = none
  | JobStatus.RUNNING =>
    j.result_json = none ∧ j.error_message = none ∧ j.completed_at = none
  | JobStatus.COMPLETED =>
    j.completed_at.isSome ∧ j.result_json.isSome ∧ j.error_message = none
  | JobStatus.FAILED =>
    j.completed_at.isSome ∧ j.error_message.isSome ∧ j.result_json = none

/-- The store invariant: job ids are unique (primary keys) and every job is
well-formed. -/
def StoreWF (st : Store) : Prop :=
  (st.jobs.map Job.id).Nodup ∧ ∀ j ∈ st.jobs, JobWF j

/-! ## Job-table lemmas -/

theorem findJob_cons (a : Job) (l : List Job) (id : String) :
    findJob (a :: l) id = if a.id = id then some a else findJob l id := by
  by_cases h : a.id = id <;> simp [findJob, List.find?_cons, h]

theorem updateJob_cons (a : Job) (l : List Job) (id : String) (f : Job → Job) :
    updateJob (a :: l) id f
      = (if a.id = id then f a else a) :: updateJob l id f := by
  simp [updateJob]

theorem findJob_append_of_isSome {jobs : List Job} {id : String} {j : Job}
    (l : List Job) (h : findJob jobs id = some j) :
    findJob (jobs ++ l) id = some j := by
  induction jobs with
  | nil => simp [findJob] at h
  | cons a rest ih =>
    rw [List.cons_append, findJob_cons] at *
    by_cases ha : a.id = id
    · simpa [ha] using h
    · rw [if_neg ha] at h ⊢
      exact ih h

theorem findJob_updateJob (jobs : List Job) (id : String) (f : Job → Job)
    (hf : ∀ j, j.id = id → (f j).id = id) :
    findJob (updateJob jobs id f) id = (findJob jobs id).map f := by
  induction jobs with
  | nil => simp [findJob, updateJob]
  | cons a rest ih =>
    rw [updateJob_cons, findJob_cons, findJob_cons]
    by_cases ha : a.id = id
    · simp [ha, hf a ha]
    · simp [ha, ih]

theorem findJob_updateJob_ne (jobs : List Job) (id id' : String)
    (f : Job → Job) (hf : ∀ j, j.id = id → (f j).id = id) (hne : id' ≠ id) :
    findJob (updateJob jobs id f) id' = findJob jobs id' := by
  induction jobs with
  | nil => simp [findJob, updateJob]
  | cons a rest ih =>
    rw [updateJob_cons]
    by_cases ha : a.id = id
    · have h1 : ¬((f a).id = id') := by
        rw [hf a ha]; exact fun hh => hne hh.symm
      have h2 : ¬(a.id = id') := by
        rw [ha]; exact fun hh => hne hh.symm
      rw [if_pos ha, findJob_cons, findJob_cons, ih, if_neg h1, if_neg h2]
    · rw [if_neg ha, findJob_cons, findJob_cons, ih]

theorem map_id_updateJob (jobs : List Job) (id : String) (f : Job → Job)
    (hf : ∀ j, j.id = id → (f j).id = id) :
    (updateJob jobs id f).map Job.id = jobs.map Job.id := by
  induction jobs with
  | nil => rfl
  | cons a rest ih =>
    rw [updateJob_cons]
    by_cases ha : a.id = id
    · simp [ha, ih, hf a ha]
    · simp [ha, ih]

theorem mem_updateJob {j' : Job} {jobs : List Job} {id : String}
    {f : Job → Job} (h : j' ∈ updateJob jobs id f) :
    ∃ j ∈ jobs, j' = if j.id = id then f j else j := by
  rcases List.mem_map.mp h with ⟨j, hj, hje⟩
  exact ⟨j, hj, hje.symm⟩

theorem findJob_of_mem_nodup {jobs : List Job} {j : Job}
    (hn : (jobs.map Job.id).Nodup) (hm : j ∈ jobs) :
    findJob jobs j.id = some j := by
  induction jobs with
  | nil => cases hm
  | cons a rest ih =>
    rw [findJob_cons]
    rcases List.mem_cons.mp hm with rfl | hmr
    · simp
    · have hane : a.id ≠ j.id := by
        intro he
        exact (List.nodup_cons.mp hn).1 (he ▸ List.mem_map_of_mem Job.id hmr)
      rw [if_neg hane]
      exact ih (List.nodup_cons.mp hn).2 hmr

theorem updateJob_of_not_mem {jobs : List Job} {id : String} {f : Job → Job}
    (h : ∀ j ∈ jobs, j.id ≠ id) : updateJob jobs id f = jobs := by
  induction jobs with
  | nil => rfl
  | cons a rest ih =>
    rw [updateJob_cons, if_neg (h a (List.mem_cons_self a rest))]
    rw [ih (fun j hj => h j (List.mem_cons_of_mem a hj))]

theorem updateJob_append_fresh {jobs : List Job} {id : String} {x : Job}
    (f : Job → Job) (h : ∀ j ∈ jobs, j.id ≠ id) (hx : x.id = id) :
    updateJob (jobs ++ [x]) id f = jobs ++ [f x] := by
  induction jobs with
  | nil => simp [updateJob, hx]
  | cons a rest ih =>
    rw [List.cons_append, updateJob_cons,
      if_neg (h a (List.mem_cons_self a rest)), List.cons_append]
    rw [ih (fun j hj => h j (List.mem_cons_of_mem a hj))]

/-! ## Dictionary and deduplication lemmas -/

theorem lookup_eq_some_mem {α : Type} {l : List (String × α)} {k : String}
    {v : α} (h : lookup l k = some v) : (k, v) ∈ l := by
  unfold lookup at h
  cases hf : l.find? (fun kv => kv.1 = k) with
  | none => rw [hf] at h; cases h
  | some kv =>
    rw [hf] at h
    have hp0 := List.find?_some hf
    simp only [decide_eq_true_eq] at hp0
    have hp : kv.1 = k := hp0
    have hv : kv.2 = v := Option.some.inj h
    have hm := List.mem_of_find?_eq_some hf
    obtain ⟨k1, v1⟩ := kv
    cases hp
    cases hv
    exact hm

theorem foldl_dedup_nodup (l : List String) : ∀ acc : List String, acc.Nodup →
    (l.foldl (fun uniq p => if p ∈ uniq then uniq else uniq ++ [p]) acc).Nodup := by
  induction l with
  | nil => intro acc h; simpa using h
  | cons a rest ih =>
    intro acc h
    simp only [List.foldl_cons]
    by_cases ha : a ∈ acc
    · rw [if_pos ha]; exact ih acc h
    · rw [if_neg ha]
      refine ih _ ?_
      rw [List.nodup_append]
      refine ⟨h, List.nodup_singleton a, fun x hx hxa => ?_⟩
      exact ha ((List.mem_singleton.mp hxa) ▸ hx)

theorem dedupFirst_nodup (l : List String) : (dedupFirst l).Nodup :=
  foldl_dedup_nodup l [] List.nodup_nil

theorem foldl_dedup_of_disjoint (l : List String) : ∀ acc : List String,
    l.Nodup → (∀ p ∈ l, p ∉ acc) →
    l.foldl (fun uniq p => if p ∈ uniq then uniq else uniq ++ [p]) acc
      = acc ++ l := by
  induction l with
  | nil => intro acc _ _; simp
  | cons a rest ih =>
    intro acc hnd hdisj
    simp only [List.foldl_cons]
    rw [if_neg (hdisj a (List.mem_cons_self a rest))]
    rw [ih (acc ++ [a]) (List.nodup_cons.mp hnd).2 ?_]
    · simp
    · intro p hp hmem
      rcases List.mem_append.mp hmem with h1 | h2
      · exact hdisj p (List.mem_cons_of_mem a hp) h1
      · exact (List.nodup_cons.mp hnd).1 ((List.mem_singleton.mp h2) ▸ hp)

theorem dedupFirst_eq_self {l : List String} (h : l.Nodup) :
    dedupFirst l = l := by
  unfold dedupFirst
  simpa using foldl_dedup_of_disjoint l [] h (by simp)

/-! ## Claim C10 — execution-mode resolver -/

/-- C10: for every value of the `EVIFORGE_JOB_EXECUTION` environment
variable (including unset), `_execution_mode` returns one of exactly
`"queue"`, `"inline"`, `"auto"`; the value is compared after stripping
surrounding whitespace and lowercasing, and any value outside that set (or no
value) yields `"auto"`. -/
theorem C10_execution_mode_resolver (env : Option String) :
    (executionMode env = "queue" ∨ executionMode env = "inline" ∨
      executionMode env = "auto") ∧
    ((pyLower (pyStrip (env.getD "auto")) = "queue" ∨
      pyLower (pyStrip (env.getD "auto")) = "inline" ∨
      pyLower (pyStrip (env.getD "auto")) = "auto") →
      executionMode env = pyLower (pyStrip (env.getD "auto"))) ∧
    (¬(pyLower (pyStrip (env.getD "auto")) = "queue" ∨
      pyLower (pyStrip (env.getD "auto")) = "inline" ∨
      pyLower (pyStrip (env.getD "auto")) = "auto") →
      executionMode env = "auto") ∧
    executionMode none = "auto" := by
  have hnone : executionMode none = "auto" := by decide
  have hm : executionMode env =
      if pyLower (pyStrip (env.getD "auto")) = "queue" ∨
        pyLower (pyStrip (env.getD "auto")) = "inline" ∨
        pyLower (pyStrip (env.getD "auto")) = "auto"
      then pyLower (pyStrip (env.getD "auto")) else "auto" := rfl
  by_cases h : pyLower (pyStrip (env.getD "auto")) = "queue" ∨
      pyLower (pyStrip (env.getD "auto")) = "inline" ∨
      pyLower (pyStrip (env.getD "auto")) = "auto"
  · rw [hm, if_pos h]
    exact ⟨h, fun _ => rfl, fun hc => absurd h hc, hnone⟩
  · rw [hm, if_neg h]
    exact ⟨Or.inr (Or.inr rfl), fun hc => absurd hc h, fun _ => rfl, hnone⟩

/-- Witness for C10 at concrete inputs: a padded upper-case value maps into
the set, an unknown value falls back to `"auto"`. -/
theorem C10_execution_mode_resolver_witness :
    executionMode (some " QUEUE ") = pyLower (pyStrip " QUEUE ") ∧
    executionMode (some "turbo") = "auto" :=
  ⟨(C10_execution_mode_resolver (some " QUEUE ")).2.1 (Or.inl (by decide)),
   (C10_execution_mode_resolver (some "turbo")).2.2.1 (by decide)⟩

/-! ## Claim C8 — result preview is an allow-listed verbatim subset -/

theorem mem_resultPreview {result : List (String × JVal)} {k : String}
    {v : JVal} (h : (k, v) ∈ resultPreview result) :
    (k ∈ previewKeys ∨ k = "output_file") ∧ lookup result k = some v := by
  unfold resultPreview at h
  rcases List.mem_append.mp h with h1 | h2
  · rcases List.mem_filterMap.mp h1 with ⟨kk, hkk, hg⟩
    cases hl : lookup result kk with
    | none => rw [hl] at hg; cases hg
    | some vv =>
      rw [hl] at hg
      have hpair := Option.some.inj hg
      injection hpair with hk hv
      subst hk
      subst hv
      exact ⟨Or.inl hkk, hl⟩
  · cases hl : lookup result "output_file" with
    | none => rw [hl] at h2; cases h2
    | some vv =>
      rw [hl] at h2
      have hpair := List.mem_singleton.mp h2
      injection hpair with hk hv
      subst hk
      subst hv
      exact ⟨Or.inr rfl, hl⟩

/-- C8: every key present in `_result_preview(result)` belongs to the
fixed allow-list (or is `output_file`) and carries the identical value it has
in `result`; keys absent from `result` are absent from the preview. -/
theorem C8_result_preview_allowlist (result : List (String × JVal))
    (k : String) :
    (∀ v, lookup (resultPreview result) k = some v →
      (k ∈ previewKeys ∨ k = "output_file") ∧ lookup result k = some v) ∧
    (lookup result k = none → lookup (resultPreview result) k = none) := by
  constructor
  · intro v h
    exact mem_resultPreview (lookup_eq_some_mem h)
  · intro hnone
    cases hl : lookup (resultPreview result) k with
    | none => rfl
    | some v =>
      have h2 := (mem_resultPreview (lookup_eq_some_mem hl)).2
      rw [hnone] at h2
      cases h2

/-- Witness for C8 at a concrete result: `status` is copied verbatim, and a
key absent from the result is absent from the preview. -/
theorem C8_result_preview_allowlist_witness :
    (("status" ∈ previewKeys ∨ "status" = "output_file") ∧
      lookup [("status", JVal.s "ok"), ("blob", JVal.n 3)] "status"
        = some (JVal.s "ok")) ∧
    lookup (resultPreview [("status", JVal.s "ok"), ("blob", JVal.n 3)])
      "missing" = none :=
  ⟨(C8_result_preview_allowlist [("status", JVal.s "ok"), ("blob", JVal.n 3)]
      "status").1 (JVal.s "ok") (by rfl),
   (C8_result_preview_allowlist [("status", JVal.s "ok"), ("blob", JVal.n 3)]
      "missing").2 (by rfl)⟩

/-! ## Claim C4 — output-file extraction refines the spec's rule -/

/-- C4: `_extract_output_files` considers the single `output_file` string
and then each string entry of the `output_files` list in encounter order,
keeps exactly the paths that resolve under the artifact root (converted to
root-relative form), silently drops the rest, and deduplicates with the first
occurrence winning — i.e. it coincides with the spec-side restatement. -/
theorem C4_output_file_extraction (result : List (String × JVal))
    (cwd root : List String) :
    extractOutputFiles result cwd root = specExtractOutputFiles result cwd root := by
  simp only [extractOutputFiles, specExtractOutputFiles, encounterOrderPaths]
  rw [List.filterMap_append]
  congr 1
  congr 1
  · cases lookup result "output_file" with
    | none => rfl
    | some v =>
      cases v with
      | s f =>
        cases hrel : relativeTo (resolvePath cwd f) root with
        | none => simp [relUnderRoot, hrel, List.filterMap_cons]
        | some rel => simp [relUnderRoot, hrel, List.filterMap_cons]
      | n v => rfl
      | b v => rfl
      | null => rfl
      | list vs => rfl
      | obj fs => rfl
  · cases lookup result "output_files" with
    | none => rfl
    | some v =>
      cases v with
      | list items =>
        rw [List.filterMap_filterMap]
        show items.filterMap _ = items.filterMap _
        congr 1
        funext item
        cases item <;> rfl
      | s v => rfl
      | n v => rfl
      | b v => rfl
      | null => rfl
      | obj fs => rfl

/-! ## Claim C9 — extraction is deterministic and yields a deduplicated list -/

/-- C9: for a fixed raw result and artifact root, running
`_extract_output_files` twice yields the same list both times (the embedding
is a pure function of its inputs), and that list is already deduplicated:
deduplicating it again changes nothing. -/
theorem C9_extraction_idempotent (result : List (String × JVal))
    (cwd root : List String) :
    extractOutputFiles result cwd root = extractOutputFiles result cwd root ∧
    dedupFirst (extractOutputFiles result cwd root)
      = extractOutputFiles result cwd root := by
  refine ⟨rfl, dedupFirst_eq_self ?_⟩
  unfold extractOutputFiles
  exact dedupFirst_nodup _

/-! ## Submission lemmas -/

theorem lookup_cons {α : Type} (a : String × α) (l : List (String × α))
    (k : String) :
    lookup (a :: l) k = if a.1 = k then some a.2 else lookup l k := by
  by_cases h : a.1 = k <;> simp [lookup, List.find?_cons, h]

theorem lookup_moduleRequirements (registry : List (String × Module))
    (k : String) :
    lookup (moduleRequirements registry) k
      = (lookup registry k).map Module.requires_evidence := by
  induction registry with
  | nil => rfl
  | cons a rest ih =>
    rw [show moduleRequirements (a :: rest)
        = (a.1, a.2.requires_evidence) :: moduleRequirements rest from rfl,
      lookup_cons, lookup_cons]
    by_cases h : a.1 = k <;> simp [h, ih]

theorem pyStartsWith_append (pre s : String) :
    pyStartsWith (pre ++ s) pre = true := by
  unfold pyStartsWith
  rw [String.data_append, List.isPrefixOf_iff_prefix]
  exact List.prefix_append _ _

/-- Behaviour of `enqueue_job` under `auto` mode with a failing publish: the job is still
returned, committed to the session, and tagged `inline:`. -/
theorem enqueueJob_auto_publish_error (pending : List Job)
    (cid tn : String) (params : List (String × JVal)) (e jid : String)
    (now : Nat) (hfresh : ∀ j ∈ pending, j.id ≠ jid) :
    ∃ job, enqueueJob pending cid tn params "auto" (Except.error e) jid now
        = Except.ok (pending ++ [job], job) ∧
      job.rq_job_id = some ("inline:" ++ jid) ∧ job.id = jid ∧
      job.status = JobStatus.PENDING ∧ job.result_json = none ∧
      job.error_message = none ∧ job.completed_at = none := by
  refine ⟨{ id := jid, case_id := cid,
            evidence_id := getStrOpt (lookup params "evidence_id"),
            tool_name := tn, status := JobStatus.PENDING,
            queued_at := some now, created_at := some now, params := params,
            rq_job_id := some ("inline:" ++ jid) },
    ?_, rfl, rfl, rfl, rfl, rfl, rfl⟩
  show Except.ok (updateJob (pending ++ [_]) jid (fun _ => _), _) = _
  rw [updateJob_append_fresh _ hfresh rfl]

/-- Behaviour of `enqueue_job` under `auto` mode with a working publish: the queue id is
used as the dispatch token. -/
theorem enqueueJob_auto_publish_ok (pending : List Job) (cid tn : String)
    (params : List (String × JVal)) (rqid jid : String) (now : Nat)
    (hfresh : ∀ j ∈ pending, j.id ≠ jid) :
    ∃ job, enqueueJob pending cid tn params "auto" (Except.ok rqid) jid now
        = Except.ok (pending ++ [job], job) ∧
      job.rq_job_id = some rqid ∧ job.id = jid := by
  refine ⟨{ id := jid, case_id := cid,
            evidence_id := getStrOpt (lookup params "evidence_id"),
            tool_name := tn, status := JobStatus.PENDING,
            queued_at := some now, created_at := some now, params := params,
            rq_job_id := some rqid },
    ?_, rfl, rfl⟩
  show Except.ok (updateJob (pending ++ [_]) jid (fun _ => _), _) = _
  rw [updateJob_append_fresh _ hfresh rfl]

/-! ## Claim C1 — validation failures create no Job -/

/-- C1: a submission naming a module absent from the registry, or a
module that requires evidence when no (truthy) evidence reference is
supplied, fails with a validation error on both entry points
(`DesktopBackend.submit_module` and `create_case_job`) before any Job is
created: the committed store is unchanged and no job with the submission's
intended identity appears in any subsequent listing. -/
theorem C1_validation_rejects_before_job_creation
    (registry : List (String × Module)) (st : Store)
    (case_id module_name : String) (evidence_id : Option String)
    (params : Option (List (String × JVal))) (params0 : List (String × JVal))
    (actor mode : String) (publish : Except String String)
    (now : Nat) (newId : String)
    (hval : lookup registry module_name = none ∨
      ∃ m, lookup registry module_name = some m ∧
        m.requires_evidence = true ∧ truthy evidence_id = false)
    (hcase : st.cases.contains case_id = true)
    (hfresh : ∀ j ∈ st.jobs, j.id ≠ newId) :
    ((submitModule registry st case_id module_name evidence_id params actor
        now newId).1 = st ∧
      ∃ e, (submitModule registry st case_id module_name evidence_id params
        actor now newId).2 = Except.error e) ∧
    ((createCaseJob registry st case_id module_name evidence_id params0 actor
        mode publish newId now).1 = st ∧
      ∃ d, (createCaseJob registry st case_id module_name evidence_id params0
        actor mode publish newId now).2.1 = Except.error (400, d)) ∧
    (∀ j ∈ listCaseJobs st case_id, j.id ≠ newId) := by
  have hcase' : case_id ∈ st.cases := by simpa using hcase
  refine ⟨?_, ?_, ?_⟩
  · rcases hval with hnone | ⟨m, hm, hreq, hev⟩
    · simp [submitModule, hnone]
    · simp [submitModule, hm, hreq, hev]
  · rcases hval with hnone | ⟨m, hm, hreq, hev⟩
    · have heq : createCaseJob registry st case_id module_name evidence_id
          params0 actor mode publish newId now
          = (st, Except.error (400, "Unsupported module"), false) := by
        simp [createCaseJob, hcase', lookup_moduleRequirements, hnone]
      rw [heq]
      exact ⟨rfl, "Unsupported module", rfl⟩
    · have heq : createCaseJob registry st case_id module_name evidence_id
          params0 actor mode publish newId now
          = (st, Except.error
              (400, "evidence_id is required for this module"), false) := by
        simp [createCaseJob, hcase', lookup_moduleRequirements, hm, hreq, hev]
      rw [heq]
      exact ⟨rfl, "evidence_id is required for this module", rfl⟩
  · intro j hj
    have hj1 : j ∈ st.jobs.filter (fun j => j.case_id = case_id) := by
      have := List.mem_mergeSort.mp hj
      exact this
    exact hfresh j (List.mem_of_mem_filter hj1)

/-! ## Claim C3 — auto mode falls back to inline per submission -/

/-- C3: under `auto` mode, if publishing to the queue raises,
`enqueue_job` still returns the created Job tagged with the `inline:`
dispatch-token prefix and the API submission path then schedules inline
execution; the fallback is per-submission — the same call with a working
publish tags the job with the queue's id instead. -/
theorem C3_auto_mode_inline_fallback
    (pending : List Job) (case_id tool_name : String)
    (params : List (String × JVal)) (e rqid jid : String) (now : Nat)
    (registry : List (String × Module)) (st : Store) (module_name : String)
    (evidence_id : Option String) (params0 : List (String × JVal))
    (actor newId : String) (m : Module)
    (hfresh : ∀ j ∈ pending, j.id ≠ jid)
    (hcase : st.cases.contains case_id = true)
    (hm : lookup registry module_name = some m)
    (hev : m.requires_evidence = false ∨ truthy evidence_id = true) :
    (∃ job, enqueueJob pending case_id tool_name params "auto"
        (Except.error e) jid now = Except.ok (pending ++ [job], job) ∧
      job.rq_job_id = some ("inline:" ++ jid)) ∧
    (∃ job2, enqueueJob pending case_id tool_name params "auto"
        (Except.ok rqid) jid now = Except.ok (pending ++ [job2], job2) ∧
      job2.rq_job_id = some rqid) ∧
    (createCaseJob registry st case_id module_name evidence_id params0 actor
      "auto" (Except.error e) newId now).2.2 = true := by
  refine ⟨?_, ?_, ?_⟩
  · obtain ⟨job, h1, h2, _⟩ :=
      enqueueJob_auto_publish_error pending case_id tool_name params e jid
        now hfresh
    exact ⟨job, h1, h2⟩
  · obtain ⟨job2, h1, h2, _⟩ :=
      enqueueJob_auto_publish_ok pending case_id tool_name params rqid jid
        now hfresh
    exact ⟨job2, h1, h2⟩
  · have henq : enqueueJob st.jobs case_id module_name
        (dictSet (if truthy evidence_id then
            dictSet params0 "evidence_id" (JVal.s (evidence_id.getD ""))
          else params0) "actor" (JVal.s actor)) "auto" (Except.error e)
        newId now
        = Except.ok
            (updateJob (st.jobs ++ [_]) newId (fun _ => _), _) := rfl
    rcases hev with hreq | hev
    · simp only [createCaseJob, hcase, Bool.not_true, Bool.false_eq_true,
        if_false, lookup_moduleRequirements, hm, Option.map_some', hreq,
        Bool.false_and, henq]
      exact pyStartsWith_append "inline:" newId
    · simp only [createCaseJob, hcase, Bool.not_true, Bool.false_eq_true,
        if_false, lookup_moduleRequirements, hm, Option.map_some', hev,
        Bool.not_true, Bool.and_false, Bool.false_eq_true, if_false, henq]
      exact pyStartsWith_append "inline:" newId

/-! ## Claim C7 — queue mode surfaces publish failures, commits nothing -/

/-- C7: under `queue` mode a publish failure is raised out of
`enqueue_job` and surfaced by `create_case_job` as a 500 submission error;
the committed store is returned unchanged (the flushed insert is rolled back
with the session) and no inline execution is scheduled, so no committed Job
marked for execution results from the submission. -/
theorem C7_queue_mode_publish_failure_surfaces
    (pending : List Job) (case_id tool_name : String)
    (params : List (String × JVal)) (e jid : String) (now : Nat)
    (registry : List (String × Module)) (st : Store) (module_name : String)
    (evidence_id : Option String) (params0 : List (String × JVal))
    (actor newId : String) (m : Module)
    (hcase : st.cases.contains case_id = true)
    (hm : lookup registry module_name = some m)
    (hev : m.requires_evidence = false ∨ truthy evidence_id = true) :
    enqueueJob pending case_id tool_name params "queue" (Except.error e)
      jid now = Except.error e ∧
    createCaseJob registry st case_id module_name evidence_id params0 actor
      "queue" (Except.error e) newId now
      = (st, Except.error (500, e), false) := by
  have hcase' : case_id ∈ st.cases := by simpa using hcase
  refine ⟨rfl, ?_⟩
  rcases hev with hreq | hev
  · simp [createCaseJob, hcase', lookup_moduleRequirements, hm, hreq,
      enqueueJob]
  · simp [createCaseJob, hcase', lookup_moduleRequirements, hm, hev,
      enqueueJob]

/-! ## Claim C2 — execution failures become a sanitized FAILED job -/

/-- An execution outcome the worker must treat as a failure: a raised
exception, or a returned value that is not a dict. -/
def badOutcome : RunOutcome → Prop
  | RunOutcome.exn _ => True
  | RunOutcome.ok (JVal.obj _) => False
  | RunOutcome.ok _ => True

theorem sanitizeText_with_traceback_ne_empty (pre detail : String) :
    sanitizeText (pre ++ "\n" ++ tracebackText detail) ≠ "" := by
  intro h
  have hdata : ((pre ++ "\n" ++ tracebackText detail).data.filter
      (fun c => !isCtrl c)) = [] := by
    have hc := congrArg String.data h
    simpa [sanitizeText] using hc
  have hT : 'T' ∈ (pre ++ "\n" ++ tracebackText detail).data := by
    rw [String.data_append]
    refine List.mem_append_right _ ?_
    show 'T' ∈ (tracebackText detail).data
    rw [show tracebackText detail
        = "Traceback (most recent call last):\n" ++ detail from rfl,
      String.data_append]
    refine List.mem_append_left _ ?_
    decide
  have hmem : 'T' ∈ ((pre ++ "\n" ++ tracebackText detail).data.filter
      (fun c => !isCtrl c)) :=
    List.mem_filter.mpr ⟨hT, by decide⟩
  rw [hdata] at hmem
  cases hmem

/-- C2: when the module's run raises or returns a non-dict value, the
desktop executor transitions the job to `FAILED` with `completed_at` stamped
and a non-empty sanitized `error_message`, leaves `output_files` empty, and
returns normally — the failure is communicated only through the persisted
job (the embedding `executeJob` is a total function). -/
theorem C2_failure_persisted_sanitized (jobs : List Job) (id : String)
    (outcome : RunOutcome) (cwd root : List String) (t1 t2 : Nat)
    (tbdetail : String) (j : Job)
    (hfind : findJob jobs id = some j)
    (hof : j.output_files = [])
    (hbad : badOutcome outcome) :
    ∃ j2, findJob (executeJob jobs id outcome cwd root t1 t2 tbdetail) id
        = some j2 ∧
      j2.status = JobStatus.FAILED ∧ j2.completed_at = some t2 ∧
      (∃ e, j2.error_message = some e ∧ e ≠ "") ∧
      j2.output_files = [] := by
  have hfind2 : findJob (markRunningOp jobs id t1) id
      = some { j with status := JobStatus.RUNNING, started_at := some t1 } := by
    simp only [markRunningOp, hfind]
    rw [findJob_updateJob jobs id (markFields t1) (fun j' hj' => hj'), hfind]
    rfl
  have hfail : ∀ err,
      findJob (failUpdate (markRunningOp jobs id t1) id err t2) id
        = some { j with status := JobStatus.FAILED, started_at := some t1,
                        completed_at := some t2,
                        error_message := some err } := by
    intro err
    simp only [failUpdate, hfind2]
    rw [findJob_updateJob (markRunningOp jobs id t1) id (failFields err t2)
      (fun j' hj' => hj'), hfind2]
    rfl
  have hgen : ∀ pre, ∃ j2,
      findJob (failUpdate (markRunningOp jobs id t1) id
        (sanitizeText (pre ++ "\n" ++ tracebackText tbdetail)) t2) id
          = some j2 ∧
      j2.status = JobStatus.FAILED ∧ j2.completed_at = some t2 ∧
      (∃ e, j2.error_message = some e ∧ e ≠ "") ∧
      j2.output_files = [] := by
    intro pre
    exact ⟨_, hfail _, rfl, rfl,
      ⟨_, rfl, sanitizeText_with_traceback_ne_empty _ _⟩, hof⟩
  simp only [executeJob, hfind]
  cases outcome with
  | exn msg =>
    simp only [finishJob]
    exact hgen msg
  | ok r =>
    cases r with
    | obj fields => exact hbad.elim
    | s v => simpa only [finishJob] using hgen "Module returned non-dict result"
    | n v => simpa only [finishJob] using hgen "Module returned non-dict result"
    | b v => simpa only [finishJob] using hgen "Module returned non-dict result"
    | null => simpa only [finishJob] using hgen "Module returned non-dict result"
    | list vs => simpa only [finishJob] using hgen "Module returned non-dict result"

/-! ## Shape lemmas for the trace invariants -/

/-- Shape lemma: `submit_module` either rejects (store unchanged) or commits exactly one
fresh `PENDING` job with no payload fields. -/
theorem submitModule_store (registry : List (String × Module)) (st : Store)
    (case_id module_name : String) (evidence_id : Option String)
    (params : Option (List (String × JVal))) (actor : String) (now : Nat)
    (newId : String) :
    (submitModule registry st case_id module_name evidence_id params actor
        now newId).1 = st ∨
    ∃ job, (submitModule registry st case_id module_name evidence_id params
        actor now newId).1 = { st with jobs := st.jobs ++ [job] } ∧
      job.id = newId ∧ job.status = JobStatus.PENDING ∧
      job.result_json = none ∧ job.error_message = none ∧
      job.completed_at = none := by
  unfold submitModule
  cases lookup registry module_name with
  | none => exact Or.inl rfl
  | some m =>
    dsimp only
    split
    · exact Or.inl rfl
    · split
      · exact Or.inl rfl
      · split
        · exact Or.inl rfl
        · exact Or.inr ⟨_, rfl, rfl, rfl, rfl, rfl, rfl⟩

/-- A successful `enqueue_job` flushes exactly one fresh `PENDING` job with
no payload fields into the session, and returns it. -/
theorem enqueueJob_ok_shape {pending : List Job} {cid tn : String}
    {params : List (String × JVal)} {mode : String}
    {publish : Except String String} {jid : String} {now : Nat}
    {jobs1 : List Job} {job : Job}
    (hfresh : ∀ j ∈ pending, j.id ≠ jid)
    (h : enqueueJob pending cid tn params mode publish jid now
      = Except.ok (jobs1, job)) :
    jobs1 = pending ++ [job] ∧ job.id = jid ∧
    job.status = JobStatus.PENDING ∧ job.result_json = none ∧
    job.error_message = none ∧ job.completed_at = none := by
  simp only [enqueueJob] at h
  split at h
  · injection h with hpair
    injection hpair with h1 h2
    subst h1
    subst h2
    rw [updateJob_append_fresh _ hfresh rfl]
    exact ⟨rfl, rfl, rfl, rfl, rfl, rfl⟩
  · split at h
    · injection h with hpair
      injection hpair with h1 h2
      subst h1
      subst h2
      rw [updateJob_append_fresh _ hfresh rfl]
      exact ⟨rfl, rfl, rfl, rfl, rfl, rfl⟩
    · split at h
      · cases h
      · injection h with hpair
        injection hpair with h1 h2
        subst h1
        subst h2
        rw [updateJob_append_fresh _ hfresh rfl]
        exact ⟨rfl, rfl, rfl, rfl, rfl, rfl⟩

/-- Shape lemma: `create_case_job` either rejects (store unchanged) or commits exactly
one fresh `PENDING` job with no payload fields. -/
theorem createCaseJob_store (registry : List (String × Module)) (st : Store)
    (case_id module_name : String) (evidence_id : Option String)
    (params0 : List (String × JVal)) (actor mode : String)
    (publish : Except String String) (newId : String) (now : Nat)
    (hfresh : ∀ j ∈ st.jobs, j.id ≠ newId) :
    (createCaseJob registry st case_id module_name evidence_id params0 actor
        mode publish newId now).1 = st ∨
    ∃ job, (createCaseJob registry st case_id module_name evidence_id
        params0 actor mode publish newId now).1
        = { st with jobs := st.jobs ++ [job] } ∧
      job.id = newId ∧ job.status = JobStatus.PENDING ∧
      job.result_json = none ∧ job.error_message = none ∧
      job.completed_at = none := by
  unfold createCaseJob
  split
  · exact Or.inl rfl
  · split
    · exact Or.inl rfl
    · split
      · exact Or.inl rfl
      · split
        · dsimp only
          split
          · exact Or.inl rfl
          · rename_i jobs1 job heq
            obtain ⟨h1, h2, h3, h4, h5, h6⟩ := enqueueJob_ok_shape hfresh heq
            exact Or.inr ⟨_, by rw [h1], h2, h3, h4, h5, h6⟩
        · dsimp only
          split
          · exact Or.inl rfl
          · rename_i jobs1 job heq
            obtain ⟨h1, h2, h3, h4, h5, h6⟩ := enqueueJob_ok_shape hfresh heq
            exact Or.inr ⟨_, by rw [h1], h2, h3, h4, h5, h6⟩

theorem storeWF_append_fresh {st : Store} {job : Job}
    (hwf : StoreWF st) (hfresh : ∀ j ∈ st.jobs, j.id ≠ job.id)
    (hjob : JobWF job) : StoreWF { st with jobs := st.jobs ++ [job] } := by
  constructor
  · show ((st.jobs ++ [job]).map Job.id).Nodup
    rw [List.map_append, List.nodup_append]
    refine ⟨hwf.1, by simp, ?_⟩
    intro x hx hx1
    rcases List.mem_map.mp hx with ⟨j, hj, rfl⟩
    simp only [List.map_cons, List.map_nil, List.mem_singleton] at hx1
    exact hfresh j hj hx1
  · intro j hj
    rcases List.mem_append.mp hj with h | h
    · exact hwf.2 j h
    · rw [List.mem_singleton.mp h]
      exact hjob

/-- Updating the job found at `id` preserves per-job well-formedness as
long as the updated record is itself well-formed. -/
theorem jobWF_updateJob {jobs : List Job} {id : String} {f : Job → Job}
    {jt : Job}
    (hn : (jobs.map Job.id).Nodup) (hwf : ∀ j ∈ jobs, JobWF j)
    (hfind : findJob jobs id = some jt) (hft : JobWF (f jt)) :
    ∀ j2 ∈ updateJob jobs id f, JobWF j2 := by
  intro j2 hj2
  rcases mem_updateJob hj2 with ⟨j, hj, hje⟩
  subst hje
  by_cases hid : j.id = id
  · rw [if_pos hid]
    have h1 : findJob jobs id = some j := hid ▸ findJob_of_mem_nodup hn hj
    have h2 : j = jt := Option.some.inj (h1.symm.trans hfind)
    rw [h2]
    exact hft
  · rw [if_neg hid]
    exact hwf j hj

/-! ## Preservation of the store invariant along system steps -/

theorem failUpdate_WF {st : Store} {id : String} {tj : Job}
    (hwf : StoreWF st) (hrun : findJob st.jobs id = some tj)
    (hres : tj.result_json = none) (err : String) (t : Nat) :
    StoreWF { st with jobs := failUpdate st.jobs id err t } := by
  constructor
  · show ((failUpdate st.jobs id err t).map Job.id).Nodup
    simp only [failUpdate, hrun]
    rw [map_id_updateJob _ _ (failFields err t) (fun j' hj' => hj')]
    exact hwf.1
  · intro j2 hj2
    simp only [failUpdate, hrun] at hj2
    refine jobWF_updateJob hwf.1 hwf.2 hrun ?_ j2 hj2
    simp only [JobWF, failFields]
    exact ⟨rfl, rfl, hres⟩

/-- Every system step preserves the store invariant. -/
theorem stepWF {st st' : Store} (hwf : StoreWF st) (hs : Step st st') :
    StoreWF st' := by
  cases hs with
  | submitDesktop registry case_id module_name evidence_id params actor
      now newId hfresh =>
    rcases submitModule_store registry st case_id module_name evidence_id
        params actor now newId with h | ⟨job, h, hid, hstat, hres, herr, hcomp⟩
    · rw [h]; exact hwf
    · rw [h]
      refine storeWF_append_fresh hwf (fun j hj => hid ▸ hfresh j hj) ?_
      simp only [JobWF, hstat]
      exact ⟨hres, herr, hcomp⟩
  | submitApi registry case_id module_name evidence_id params0 actor mode
      publish newId now hfresh =>
    rcases createCaseJob_store registry st case_id module_name evidence_id
        params0 actor mode publish newId now hfresh with
      h | ⟨job, h, hid, hstat, hres, herr, hcomp⟩
    · rw [h]; exact hwf
    · rw [h]
      refine storeWF_append_fresh hwf (fun j hj => hid ▸ hfresh j hj) ?_
      simp only [JobWF, hstat]
      exact ⟨hres, herr, hcomp⟩
  | markRunning id t tj hpend hst =>
    have hwfj := hwf.2 tj (List.mem_of_find?_eq_some hpend)
    simp only [JobWF, hst] at hwfj
    constructor
    · show ((markRunningOp st.jobs id t).map Job.id).Nodup
      simp only [markRunningOp, hpend]
      rw [map_id_updateJob _ _ (markFields t) (fun j' hj' => hj')]
      exact hwf.1
    · intro j2 hj2
      simp only [markRunningOp, hpend] at hj2
      refine jobWF_updateJob hwf.1 hwf.2 hpend ?_ j2 hj2
      simp only [JobWF, markFields]
      exact hwfj
  | finish id outcome cwd root t tbdetail tj hrun hst =>
    have hwfj := hwf.2 tj (List.mem_of_find?_eq_some hrun)
    simp only [JobWF, hst] at hwfj
    cases outcome with
    | exn msg => exact failUpdate_WF hwf hrun hwfj.1 _ _
    | ok r =>
      cases r with
      | obj fields =>
        constructor
        · show ((finishJob st.jobs id (RunOutcome.ok (JVal.obj fields))
              cwd root t tbdetail).map Job.id).Nodup
          simp only [finishJob, hrun]
          rw [map_id_updateJob _ _
            (completeFields fields (extractOutputFiles fields cwd root)
              (resultPreview fields) t) (fun j' hj' => hj')]
          exact hwf.1
        · intro j2 hj2
          simp only [finishJob, hrun] at hj2
          refine jobWF_updateJob hwf.1 hwf.2 hrun ?_ j2 hj2
          simp only [JobWF, completeFields]
          exact ⟨rfl, rfl, hwfj.2.1⟩
      | s v => exact failUpdate_WF hwf hrun hwfj.1 _ _
      | n v => exact failUpdate_WF hwf hrun hwfj.1 _ _
      | b v => exact failUpdate_WF hwf hrun hwfj.1 _ _
      | null => exact failUpdate_WF hwf hrun hwfj.1 _ _
      | list vs => exact failUpdate_WF hwf hrun hwfj.1 _ _
  | workerStart id t tj hpend hst =>
    have hwfj := hwf.2 tj (List.mem_of_find?_eq_some hpend)
    simp only [JobWF, hst] at hwfj
    constructor
    · show ((updateJobStatus st.jobs id JobStatus.RUNNING none none t).map
        Job.id).Nodup
      simp only [updateJobStatus, hpend]
      rw [map_id_updateJob _ _ (statusFields JobStatus.RUNNING none none t)
        (fun j' hj' => hj')]
      exact hwf.1
    · intro j2 hj2
      simp only [updateJobStatus, hpend] at hj2
      refine jobWF_updateJob hwf.1 hwf.2 hpend ?_ j2 hj2
      have hred : statusFields JobStatus.RUNNING none none t tj
          = { tj with status := JobStatus.RUNNING } := rfl
      rw [hred]
      simp only [JobWF]
      exact hwfj
  | workerComplete id r t tj hrun hst =>
    have hwfj := hwf.2 tj (List.mem_of_find?_eq_some hrun)
    simp only [JobWF, hst] at hwfj
    constructor
    · show ((updateJobStatus st.jobs id JobStatus.COMPLETED (some r) none
        t).map Job.id).Nodup
      simp only [updateJobStatus, hrun]
      rw [map_id_updateJob _ _
        (statusFields JobStatus.COMPLETED (some r) none t)
        (fun j' hj' => hj')]
      exact hwf.1
    · intro j2 hj2
      simp only [updateJobStatus, hrun] at hj2
      refine jobWF_updateJob hwf.1 hwf.2 hrun ?_ j2 hj2
      have hred : statusFields JobStatus.COMPLETED (some r) none t tj
          = { tj with status := JobStatus.COMPLETED,
                      result_json := some r, completed_at := some t } := rfl
      rw [hred]
      simp only [JobWF]
      exact ⟨rfl, rfl, hwfj.2.1⟩
  | workerFail id e t tj hrun hst =>
    have hwfj := hwf.2 tj (List.mem_of_find?_eq_some hrun)
    simp only [JobWF, hst] at hwfj
    constructor
    · show ((updateJobStatus st.jobs id JobStatus.FAILED none (some e)
        t).map Job.id).Nodup
      simp only [updateJobStatus, hrun]
      rw [map_id_updateJob _ _
        (statusFields JobStatus.FAILED none (some e) t)
        (fun j' hj' => hj')]
      exact hwf.1
    · intro j2 hj2
      simp only [updateJobStatus, hrun] at hj2
      refine jobWF_updateJob hwf.1 hwf.2 hrun ?_ j2 hj2
      have hred : statusFields JobStatus.FAILED none (some e) t tj
          = { tj with status := JobStatus.FAILED,
                      error_message := some e, completed_at := some t } := rfl
      rw [hred]
      simp only [JobWF]
      exact ⟨rfl, rfl, hwfj.1⟩

/-- Every reachable store satisfies the invariant. -/
theorem reachableWF {st : Store} (h : Reachable st) : StoreWF st := by
  induction h with
  | init st h =>
    refine ⟨?_, ?_⟩ <;> simp [h]
  | step st st' hr hs ih => exact stepWF ih hs

/-! ## Claim C5 — terminal jobs carry exactly their own payload -/

/-- C5: in every reachable store, a Job whose status is `COMPLETED` or
`FAILED` has `completed_at` set, and exactly one of `result` (when
`COMPLETED`) or `error_message` (when `FAILED`) populated — never both. -/
theorem C5_terminal_payload_invariant (st : Store) (hr : Reachable st)
    (j : Job) (hm : j ∈ st.jobs)
    (hterm : j.status = JobStatus.COMPLETED ∨ j.status = JobStatus.FAILED) :
    j.completed_at.isSome ∧
    (j.status = JobStatus.COMPLETED →
      j.result_json.isSome ∧ j.error_message = none) ∧
    (j.status = JobStatus.FAILED →
      j.error_message.isSome ∧ j.result_json = none) := by
  have hwf := (reachableWF hr).2 j hm
  rcases hterm with h | h
  · simp only [JobWF, h] at hwf
    exact ⟨hwf.1, fun _ => ⟨hwf.2.1, hwf.2.2⟩,
      fun hc => absurd (h.symm.trans hc) (by simp)⟩
  · simp only [JobWF, h] at hwf
    exact ⟨hwf.1, fun hc => absurd (h.symm.trans hc) (by simp),
      fun _ => ⟨hwf.2.1, hwf.2.2⟩⟩

/-! ## Claim C6 — terminal immutability -/

/-- A terminal (COMPLETED) job, used to exhibit that `update_job_status`
does not itself guard terminal states. -/
def terminalJob : Job :=
  { id := "t1", case_id := "case1", tool_name := "verify",
    status := JobStatus.COMPLETED, queued_at := some 1, created_at := some 1,
    completed_at := some 2, result_json := some (JVal.obj []) }

/-- C6 counterexample: the claim says that for a Job in a terminal
state no subsequent status-updating operation changes its status, result or
error fields — but `update_job_status` applied to a `COMPLETED` job happily
flips it to `FAILED` and writes an error message (leaving the stale result
in place). -/
theorem C6_terminal_immutability_counterexample :
    terminalJob.status = JobStatus.COMPLETED ∧
    (findJob (updateJobStatus [terminalJob] "t1" JobStatus.FAILED none
        (some "boom") 9) "t1").map Job.status = some JobStatus.FAILED ∧
    (findJob (updateJobStatus [terminalJob] "t1" JobStatus.FAILED none
        (some "boom") 9) "t1").map Job.error_message
      = some (some "boom") ∧
    (findJob (updateJobStatus [terminalJob] "t1" JobStatus.FAILED none
        (some "boom") 9) "t1").map Job.result_json
      = some (some (JVal.obj [])) :=
  ⟨rfl, rfl, rfl, rfl⟩

/-- C6 amended: `update_job_status` itself performs no terminal-state
guard — applied directly to a terminal Job it overwrites status, result and
error fields (see the counterexample).  What the code does guarantee is
trace-level immutability: in every reachable store, a Job that has reached
`COMPLETED` or `FAILED` is left exactly unchanged (all fields, in
particular status, result and error) by every subsequent system step, since
each job's single executor has already finished with it. -/
theorem C6_terminal_stable_in_traces (st st' : Store) (hr : Reachable st)
    (hs : Step st st') (j : Job) (hm : j ∈ st.jobs)
    (hterm : j.status = JobStatus.COMPLETED ∨ j.status = JobStatus.FAILED) :
    findJob st'.jobs j.id = some j := by
  have hwf := reachableWF hr
  have hfj : findJob st.jobs j.id = some j := findJob_of_mem_nodup hwf.1 hm
  have hne : ∀ (id : String) (tj : Job), findJob st.jobs id = some tj →
      (tj.status = JobStatus.PENDING ∨ tj.status = JobStatus.RUNNING) →
      j.id ≠ id := by
    intro id tj hftj hpr he
    have h1 : findJob st.jobs id = some j := he ▸ hfj
    have h2 : j = tj := Option.some.inj (h1.symm.trans hftj)
    rcases hterm with h | h <;> rcases hpr with hp | hp <;>
      rw [h2, hp] at h <;> cases h
  cases hs with
  | submitDesktop registry case_id module_name evidence_id params actor
      now newId hfresh =>
    rcases submitModule_store registry st case_id module_name evidence_id
        params actor now newId with h | ⟨job, h, _, _, _, _, _⟩
    · rw [h]; exact hfj
    · rw [h]; exact findJob_append_of_isSome _ hfj
  | submitApi registry case_id module_name evidence_id params0 actor mode
      publish newId now hfresh =>
    rcases createCaseJob_store registry st case_id module_name evidence_id
        params0 actor mode publish newId now hfresh with
      h | ⟨job, h, _, _, _, _, _⟩
    · rw [h]; exact hfj
    · rw [h]; exact findJob_append_of_isSome _ hfj
  | markRunning id t tj hpend hst =>
    show findJob (markRunningOp st.jobs id t) j.id = some j
    simp only [markRunningOp, hpend]
    rw [findJob_updateJob_ne _ _ _ (markFields t) (fun j' hj' => hj')
      (hne id tj hpend (Or.inl hst))]
    exact hfj
  | finish id outcome cwd root t tbdetail tj hrun hst =>
    have hne' := hne id tj hrun (Or.inr hst)
    show findJob (finishJob st.jobs id outcome cwd root t tbdetail) j.id
      = some j
    cases outcome with
    | exn msg =>
      simp only [finishJob, failUpdate, hrun]
      rw [findJob_updateJob_ne _ _ _ (failFields _ _) (fun j' hj' => hj') hne']
      exact hfj
    | ok r =>
      cases r with
      | obj fields =>
        simp only [finishJob, hrun]
        rw [findJob_updateJob_ne _ _ _
          (completeFields fields (extractOutputFiles fields cwd root)
            (resultPreview fields) t) (fun j' hj' => hj') hne']
        exact hfj
      | s v =>
        simp only [finishJob, failUpdate, hrun]
        rw [findJob_updateJob_ne _ _ _ (failFields _ _) (fun j' hj' => hj') hne']
        exact hfj
      | n v =>
        simp only [finishJob, failUpdate, hrun]
        rw [findJob_updateJob_ne _ _ _ (failFields _ _) (fun j' hj' => hj') hne']
        exact hfj
      | b v =>
        simp only [finishJob, failUpdate, hrun]
        rw [findJob_updateJob_ne _ _ _ (failFields _ _) (fun j' hj' => hj') hne']
        exact hfj
      | null =>
        simp only [finishJob, failUpdate, hrun]
        rw [findJob_updateJob_ne _ _ _ (failFields _ _) (fun j' hj' => hj') hne']
        exact hfj
      | list vs =>
        simp only [finishJob, failUpdate, hrun]
        rw [findJob_updateJob_ne _ _ _ (failFields _ _) (fun j' hj' => hj') hne']
        exact hfj
  | workerStart id t tj hpend hst =>
    show findJob (updateJobStatus st.jobs id JobStatus.RUNNING none none t)
      j.id = some j
    simp only [updateJobStatus, hpend]
    rw [findJob_updateJob_ne _ _ _ (statusFields JobStatus.RUNNING none none t)
      (fun j' hj' => hj') (hne id tj hpend (Or.inl hst))]
    exact hfj
  | workerComplete id r t tj hrun hst =>
    show findJob (updateJobStatus st.jobs id JobStatus.COMPLETED (some r)
      none t) j.id = some j
    simp only [updateJobStatus, hrun]
    rw [findJob_updateJob_ne _ _ _
      (statusFields JobStatus.COMPLETED (some r) none t)
      (fun j' hj' => hj') (hne id tj hrun (Or.inr hst))]
    exact hfj
  | workerFail id e t tj hrun hst =>
    show findJob (updateJobStatus st.jobs id JobStatus.FAILED none (some e)
      t) j.id = some j
    simp only [updateJobStatus, hrun]
    rw [findJob_updateJob_ne _ _ _
      (statusFields JobStatus.FAILED none (some e) t)
      (fun j' hj' => hj') (hne id tj hrun (Or.inr hst))]
    exact hfj

/-! ## Concrete witnesses for the submission and execution claims -/

/-- A two-module registry: `report` needs no evidence, `strings` does. -/
def wRegistry : List (String × Module) :=
  [("report", { requires_evidence := false }),
   ("strings", { requires_evidence := true })]

/-- A store with one case, one evidence item, and no jobs. -/
def wStore : Store :=
  { cases := ["case1"], evidence := [("ev1", "case1")], jobs := [] }

/-- A freshly submitted (PENDING, payload-free) job, as both submission
entry points create it. -/
def wJobPending : Job :=
  { id := "j1", case_id := "case1", tool_name := "strings",
    status := JobStatus.PENDING, queued_at := some 1, created_at := some 1 }

/-- The job committed by the concrete desktop submission below. -/
def wJobD : Job :=
  { id := "j1", case_id := "case1", tool_name := "report",
    status := JobStatus.PENDING, queued_at := some 1, created_at := some 1,
    params := [("actor", JVal.s "desktop")],
    rq_job_id := some "desktop-inline:1" }

/-- The same job marked RUNNING by its executor. -/
def wJobR : Job :=
  { wJobD with status := JobStatus.RUNNING, started_at := some 2 }

/-- The same job after its successful completion. -/
def wJobC : Job :=
  { wJobD with status := JobStatus.COMPLETED, started_at := some 2,
               completed_at := some 3,
               result_json := some (JVal.obj [("status", JVal.s "ok")]),
               result_preview := some [("status", JVal.s "ok")],
               output_files := [] }

/-- Store after a desktop submission of the no-evidence `report` module. -/
def wSt1 : Store :=
  (submitModule wRegistry wStore "case1" "report" none none "desktop" 1
    "j1").1

/-- Store after the executor's RUNNING commit. -/
def wSt2 : Store := { wSt1 with jobs := markRunningOp wSt1.jobs "j1" 2 }

/-- Store after the executor's COMPLETED commit. -/
def wSt3 : Store :=
  { wSt2 with
      jobs := finishJob wSt2.jobs "j1"
        (RunOutcome.ok (JVal.obj [("status", JVal.s "ok")]))
        [] ["vault", "case1", "artifacts"] 3 "tb" }

theorem wSt1_reachable : Reachable wSt1 :=
  Reachable.step wStore wSt1 (Reachable.init wStore rfl)
    (Step.submitDesktop wStore wRegistry "case1" "report" none none
      "desktop" 1 "j1" (by intro j hj; simp [wStore] at hj))

theorem wSt2_reachable : Reachable wSt2 :=
  Reachable.step wSt1 wSt2 wSt1_reachable
    (Step.markRunning wSt1 "j1" 2 wJobD (by rfl) rfl)

theorem wSt3_reachable : Reachable wSt3 :=
  Reachable.step wSt2 wSt3 wSt2_reachable
    (Step.finish wSt2 "j1"
      (RunOutcome.ok (JVal.obj [("status", JVal.s "ok")]))
      [] ["vault", "case1", "artifacts"] 3 "tb" wJobR (by rfl) rfl)

/-- Witness for C1: submitting the evidence-requiring `strings` module with
no evidence reference is rejected by both entry points and the store (and so
any listing) is unchanged. -/
theorem C1_validation_rejects_before_job_creation_witness :
    ((submitModule wRegistry wStore "case1" "strings" none none "desktop" 1
        "job1").1 = wStore ∧
      ∃ e, (submitModule wRegistry wStore "case1" "strings" none none
        "desktop" 1 "job1").2 = Except.error e) ∧
    ((createCaseJob wRegistry wStore "case1" "strings" none [] "desktop"
        "auto" (Except.error "down") "job1" 1).1 = wStore ∧
      ∃ d, (createCaseJob wRegistry wStore "case1" "strings" none []
        "desktop" "auto" (Except.error "down") "job1" 1).2.1
          = Except.error (400, d)) ∧
    (∀ j ∈ listCaseJobs wStore "case1", j.id ≠ "job1") :=
  C1_validation_rejects_before_job_creation wRegistry wStore "case1"
    "strings" none none [] "desktop" "auto" (Except.error "down") 1 "job1"
    (Or.inr ⟨{ requires_evidence := true }, rfl, rfl, rfl⟩)
    (by decide) (by intro j hj; simp [wStore] at hj)

/-- Witness for C2: a module invocation that raises `boom` leaves the
submitted job FAILED, stamped, with a non-empty sanitized error and no
output files. -/
theorem C2_failure_persisted_sanitized_witness :
    ∃ j2, findJob (executeJob [wJobPending] "j1" (RunOutcome.exn "boom")
        [] ["vault", "case1", "artifacts"] 2 3 "frame") "j1" = some j2 ∧
      j2.status = JobStatus.FAILED ∧ j2.completed_at = some 3 ∧
      (∃ e, j2.error_message = some e ∧ e ≠ "") ∧
      j2.output_files = [] :=
  C2_failure_persisted_sanitized [wJobPending] "j1" (RunOutcome.exn "boom")
    [] ["vault", "case1", "artifacts"] 2 3 "frame" wJobPending rfl rfl trivial

/-- Witness for C3: with the queue down, the concrete submission falls back
to an `inline:`-tagged job and schedules inline execution; with the queue
back, the next submission carries the queue id. -/
theorem C3_auto_mode_inline_fallback_witness :
    (∃ job, enqueueJob [] "case1" "report" [] "auto"
        (Except.error "redis down") "job1" 5 = Except.ok ([] ++ [job], job) ∧
      job.rq_job_id = some ("inline:" ++ "job1")) ∧
    (∃ job2, enqueueJob [] "case1" "report" [] "auto"
        (Except.ok "rq-77") "job1" 5 = Except.ok ([] ++ [job2], job2) ∧
      job2.rq_job_id = some "rq-77") ∧
    (createCaseJob wRegistry wStore "case1" "report" none [] "api" "auto"
      (Except.error "redis down") "job2" 6).2.2 = true :=
  C3_auto_mode_inline_fallback [] "case1" "report" [] "redis down" "rq-77"
    "job1" 5 wRegistry wStore "report" none [] "api" "job2"
    { requires_evidence := false }
    (by intro j hj; cases hj) (by decide) rfl (Or.inl rfl)

/-- Witness for C7: under `queue` mode the concrete publish failure is
raised from `enqueue_job` and surfaced as a 500, with the store unchanged
and nothing scheduled. -/
theorem C7_queue_mode_publish_failure_surfaces_witness :
    enqueueJob [] "case1" "report" [] "queue" (Except.error "redis down")
      "job1" 5 = Except.error "redis down" ∧
    createCaseJob wRegistry wStore "case1" "report" none [] "api" "queue"
      (Except.error "redis down") "job2" 6
      = (wStore, Except.error (500, "redis down"), false) :=
  C7_queue_mode_publish_failure_surfaces [] "case1" "report" []
    "redis down" "job1" 5 wRegistry wStore "report" none [] "api" "job2"
    { requires_evidence := false }
    (by decide) rfl (Or.inl rfl)

/-- Witness for C5: the concrete completed job of the three-step trace
carries `completed_at` and exactly its result payload. -/
theorem C5_terminal_payload_invariant_witness :
    wJobC.completed_at.isSome ∧
    (wJobC.status = JobStatus.COMPLETED →
      wJobC.result_json.isSome ∧ wJobC.error_message = none) ∧
    (wJobC.status = JobStatus.FAILED →
      wJobC.error_message.isSome ∧ wJobC.result_json = none) :=
  C5_terminal_payload_invariant wSt3 wSt3_reachable wJobC
    (by rw [show wSt3.jobs = [wJobC] from rfl]
        exact List.mem_singleton_self _)
    (Or.inl rfl)

/-- Witness for C6 (amended): after a further desktop submission on top of
the three-step trace, the completed job's record is found unchanged. -/
theorem C6_terminal_stable_in_traces_witness :
    findJob (submitModule wRegistry wSt3 "case1" "report" none none
      "desktop" 4 "j2").1.jobs "j1" = some wJobC :=
  C6_terminal_stable_in_traces wSt3 _ wSt3_reachable
    (Step.submitDesktop wSt3 wRegistry "case1" "report" none none
      "desktop" 4 "j2"
      (by intro j hj
          rw [show wSt3.jobs = [wJobC] from rfl] at hj
          rcases List.mem_singleton.mp hj with rfl
          decide))
    wJobC
    (by rw [show wSt3.jobs = [wJobC] from rfl]
        exact List.mem_singleton_self _)
    (Or.inl rfl)

end EviForGe
